import Mathlib

/-!
Verification of the `pype` petroleum-engineering library.

The development shallowly embeds the two components the specification covers:

* `src/dc/dev_survey.py` — the Minimum Curvature Method trajectory
  integrator `minimum_curvature_method`, together with its intermediate
  quantities `cos_DLS`, `DLS`, `RF` and `mcmStep` (the body of the loop over
  consecutive station pairs).
* `src/na/ipr/pi.py` and `src/na/ipr/vogel.py` — the PI and Vogel Inflow
  Performance Relationship functions, embedded as `Except`-valued functions
  whose error cases mirror the Python `raise` statements (a `ValueError`
  raised by explicit validation, a `ZeroDivisionError` raised by float
  division with a zero divisor).

Machine floats are modelled by exact reals; angles are radians as in the
source.
-/

open Real

/-- Argument of the arccos in the dogleg computation:
`cos_DLS = cos(I1)*cos(I2) + sin(I1)*sin(I2)*cos(delta_A)`
(from `dev_survey.py`, the `cos_DLS` local). -/
noncomputable def cos_DLS (I1 I2 delta_A : ℝ) : ℝ :=
  Real.cos I1 * Real.cos I2 + Real.sin I1 * Real.sin I2 * Real.cos delta_A

/-- Dogleg severity: `DLS = acos(cos_DLS)/delta_MD if delta_MD != 0 else 0`
(from `dev_survey.py`, the `DLS` local). -/
noncomputable def DLS (delta_MD I1 I2 delta_A : ℝ) : ℝ :=
  if delta_MD ≠ 0 then Real.arccos (cos_DLS I1 I2 delta_A) / delta_MD else 0

/-- Ratio factor: `RF = 2/DLS * tan(DLS/2) if DLS != 0 else 1`
(from `dev_survey.py`, the `RF` local). -/
noncomputable def RF (delta_MD I1 I2 delta_A : ℝ) : ℝ :=
  if DLS delta_MD I1 I2 delta_A ≠ 0 then
    2 / DLS delta_MD I1 I2 delta_A * Real.tan (DLS delta_MD I1 I2 delta_A / 2)
  else 1

/-- One iteration of the loop in `minimum_curvature_method`: given the two
consecutive stations `(MD1, I1, A1)` and `(MD2, I2, A2)` it returns the
position increment `(delta_Easting, delta_Northing, delta_TVD)`. -/
noncomputable def mcmStep (MD1 I1 A1 MD2 I2 A2 : ℝ) : ℝ × ℝ × ℝ :=
  let delta_MD := MD2 - MD1
  let rf := RF delta_MD I1 I2 (A2 - A1)
  let sin_avg_I := (Real.sin I1 + Real.sin I2) / 2
  let cos_avg_A := Real.cos ((A1 + A2) / 2)
  let sin_avg_A := Real.sin ((A1 + A2) / 2)
  (rf * delta_MD * sin_avg_I * sin_avg_A,
   rf * delta_MD * sin_avg_I * cos_avg_A,
   rf * delta_MD * (Real.cos I1 + Real.cos I2) / 2)

/-- Tail of the loop of `minimum_curvature_method`: `prev` is the previous
station, `e`, `n`, `t` the accumulated easting/northing/TVD, and the list
argument the remaining stations; returns the easting, northing and TVD lists
produced for those remaining stations (appended by the Python loop). -/
noncomputable def mcmFrom (prev : ℝ × ℝ × ℝ) (e n t : ℝ) :
    List (ℝ × ℝ × ℝ) → List ℝ × List ℝ × List ℝ
  | [] => ([], [], [])
  | s :: rest =>
    let d := mcmStep prev.1 prev.2.1 prev.2.2 s.1 s.2.1 s.2.2
    let r := mcmFrom s (e + d.1) (n + d.2.1) (t + d.2.2) rest
    ((e + d.1) :: r.1, (n + d.2.1) :: r.2.1, (t + d.2.2) :: r.2.2)

/-- The trajectory integrator of `dev_survey.py`: stations are
`(measured depth, inclination, azimuth)` triples (radians); returns the
`(easting, northing, TVD)` coordinate lists.  The Python function seeds the
three output lists with the initial coordinates and then folds `mcmStep`
over consecutive station pairs. -/
noncomputable def minimum_curvature_method (survey_data : List (ℝ × ℝ × ℝ))
    (initial_easting initial_northing datum : ℝ) :
    List ℝ × List ℝ × List ℝ :=
  match survey_data with
  | [] => ([initial_easting], [initial_northing], [datum])
  | s :: rest =>
    let r := mcmFrom s initial_easting initial_northing datum rest
    (initial_easting :: r.1, initial_northing :: r.2.1, datum :: r.2.2)

/-- Runtime errors a Python IPR function can raise: an explicit
`raise ValueError(...)` from validation, or the `ZeroDivisionError` Python
raises when float division has divisor zero. -/
inductive PyErr where
  | valueError : PyErr
  | zeroDivisionError : PyErr
deriving DecidableEq

/-- Python float division: raises `ZeroDivisionError` when the divisor is
zero, otherwise returns the quotient. -/
noncomputable def pydiv (a b : ℝ) : Except PyErr ℝ :=
  if b = 0 then Except.error PyErr.zeroDivisionError else Except.ok (a / b)

/-- The pressure conditions under which the IPR validation blocks raise
`ValueError`: flowing pressure negative, reservoir pressure non-positive, or
flowing pressure exceeding reservoir pressure. -/
def errCond (p_wf p_r : ℝ) : Prop := p_wf < 0 ∨ p_r ≤ 0 ∨ p_wf > p_r

namespace pi

/-- Flow rate from the PI model (`pi.q` in `pi.py`):
after validation, `q = PI * (p_r - p_wf)`. -/
noncomputable def q (p_wf p_r PI : ℝ) : Except PyErr ℝ :=
  if p_wf < 0 ∨ p_r ≤ 0 then Except.error PyErr.valueError
  else if p_wf > p_r then Except.error PyErr.valueError
  else Except.ok (PI * (p_r - p_wf))

/-- Productivity index from a test point (`pi.calculate_PI` in `pi.py`):
after validation it additionally raises `ValueError` when the pressure
difference is zero, then returns `q1 / (p_r - p_wf1)`. -/
noncomputable def calculate_PI (q1 p_r p_wf1 : ℝ) : Except PyErr ℝ :=
  if p_wf1 < 0 ∨ p_r ≤ 0 then Except.error PyErr.valueError
  else if p_wf1 > p_r then Except.error PyErr.valueError
  else if p_r - p_wf1 = 0 then Except.error PyErr.valueError
  else pydiv q1 (p_r - p_wf1)

end pi

namespace vogel

/-- The Vogel polynomial factor `1 - 0.2*(p_wf/p_r) - 0.8*(p_wf/p_r)**2`
shared by `vogel.q` (as multiplier) and `vogel.calculate_qmax`
(as divisor). -/
noncomputable def vpoly (p_wf p_r : ℝ) : ℝ :=
  1 - 0.2 * (p_wf / p_r) - 0.8 * (p_wf / p_r) ^ 2

/-- Flow rate from Vogel's IPR (`vogel.q` in `vogel.py`):
after validation, `q = q_max * (1 - 0.2*p_ratio - 0.8*p_ratio**2)`. -/
noncomputable def q (p_wf p_r q_max : ℝ) : Except PyErr ℝ :=
  if p_wf < 0 ∨ p_r ≤ 0 then Except.error PyErr.valueError
  else if p_wf > p_r then Except.error PyErr.valueError
  else Except.ok (q_max * vpoly p_wf p_r)

/-- Maximum flow rate from a test point (`vogel.calculate_qmax` in
`vogel.py`): after validation it divides by the Vogel polynomial with no
zero-divisor guard, so Python float division semantics apply. -/
noncomputable def calculate_qmax (q1 p_wf1 p_r : ℝ) : Except PyErr ℝ :=
  if p_wf1 < 0 ∨ p_r ≤ 0 then Except.error PyErr.valueError
  else if p_wf1 > p_r then Except.error PyErr.valueError
  else pydiv q1 (vpoly p_wf1 p_r)

end vogel

/-! ### Helper lemmas for the trajectory integrator -/

/-- When the arccos argument is `1`, the dogleg severity vanishes in both
branches of its guard. -/
lemma DLS_of_cos_DLS_one {delta_MD I1 I2 delta_A : ℝ}
    (h : cos_DLS I1 I2 delta_A = 1) : DLS delta_MD I1 I2 delta_A = 0 := by
  rw [DLS]
  split_ifs with hmd
  · rw [h, Real.arccos_one, zero_div]
  · rfl

/-- When the dogleg severity is zero the ratio factor falls back to `1`. -/
lemma RF_of_DLS_zero {delta_MD I1 I2 delta_A : ℝ}
    (h : DLS delta_MD I1 I2 delta_A = 0) : RF delta_MD I1 I2 delta_A = 1 := by
  rw [RF, if_neg]
  simp [h]

/-- Lengths of the three lists produced by the loop tail equal the number of
remaining stations. -/
lemma mcmFrom_lengths : ∀ (rest : List (ℝ × ℝ × ℝ)) (prev : ℝ × ℝ × ℝ)
    (e n t : ℝ),
    (mcmFrom prev e n t rest).1.length = rest.length ∧
    (mcmFrom prev e n t rest).2.1.length = rest.length ∧
    (mcmFrom prev e n t rest).2.2.length = rest.length := by
  intro rest
  induction rest with
  | nil => intro prev e n t; simp [mcmFrom]
  | cons s r ih => intro prev e n t; simp [mcmFrom, ih]

/-! ### Claims about the trajectory integrator -/

/-- C1: for every non-empty survey sequence and every seed, the three result
lists have the same length as the survey and start at the seed values
(easting at `initial_easting`, northing at `initial_northing`, TVD at
`datum`). -/
theorem mcm_seed_and_length (survey : List (ℝ × ℝ × ℝ)) (iE iN d : ℝ)
    (h : survey ≠ []) :
    (minimum_curvature_method survey iE iN d).1.length = survey.length ∧
    (minimum_curvature_method survey iE iN d).2.1.length = survey.length ∧
    (minimum_curvature_method survey iE iN d).2.2.length = survey.length ∧
    (minimum_curvature_method survey iE iN d).1.head? = some iE ∧
    (minimum_curvature_method survey iE iN d).2.1.head? = some iN ∧
    (minimum_curvature_method survey iE iN d).2.2.head? = some d := by
  match survey with
  | [] => exact absurd rfl h
  | s :: rest =>
    have hl := mcmFrom_lengths rest s iE iN d
    simp [minimum_curvature_method, hl.1, hl.2.1, hl.2.2]

/-- Witness for C1 at the one-station survey `[(0, 0, 0)]` with seed
`(1, 2, 3)`. -/
theorem mcm_seed_and_length_witness :
    ([((0 : ℝ), (0 : ℝ), (0 : ℝ))] ≠ []) ∧
    ((minimum_curvature_method [((0 : ℝ), (0 : ℝ), (0 : ℝ))] 1 2 3).1.length
        = 1 ∧
     (minimum_curvature_method [((0 : ℝ), (0 : ℝ), (0 : ℝ))] 1 2 3).2.1.length
        = 1 ∧
     (minimum_curvature_method [((0 : ℝ), (0 : ℝ), (0 : ℝ))] 1 2 3).2.2.length
        = 1 ∧
     (minimum_curvature_method [((0 : ℝ), (0 : ℝ), (0 : ℝ))] 1 2 3).1.head?
        = some 1 ∧
     (minimum_curvature_method [((0 : ℝ), (0 : ℝ), (0 : ℝ))] 1 2 3).2.1.head?
        = some 2 ∧
     (minimum_curvature_method [((0 : ℝ), (0 : ℝ), (0 : ℝ))] 1 2 3).2.2.head?
        = some 3) :=
  ⟨by simp, mcm_seed_and_length [((0 : ℝ), (0 : ℝ), (0 : ℝ))] 1 2 3 (by simp)⟩

/-- C2: when two consecutive stations share inclination `I` and azimuth `A`,
the ratio factor is `1` and the step increments reduce to the straight-line
values `delta_MD * sin I * sin A` (easting), `delta_MD * sin I * cos A`
(northing) and `delta_MD * cos I` (TVD). -/
theorem mcm_straight_step (MD1 MD2 I A : ℝ) :
    RF (MD2 - MD1) I I (A - A) = 1 ∧
    mcmStep MD1 I A MD2 I A =
      ((MD2 - MD1) * Real.sin I * Real.sin A,
       (MD2 - MD1) * Real.sin I * Real.cos A,
       (MD2 - MD1) * Real.cos I) := by
  have hc : cos_DLS I I (A - A) = 1 := by
    have h := Real.sin_sq_add_cos_sq I
    simp only [cos_DLS, sub_self, Real.cos_zero, mul_one]
    nlinarith [h]
  have hrf : RF (MD2 - MD1) I I (A - A) = 1 :=
    RF_of_DLS_zero (DLS_of_cos_DLS_one hc)
  refine ⟨hrf, ?_⟩
  simp only [mcmStep]
  rw [hrf]
  simp only [Prod.mk.injEq]
  refine ⟨?_, ?_, ?_⟩
  · rw [add_self_div_two A]; ring
  · rw [add_self_div_two A]; ring
  · ring

/-- C3: with all inclinations zero every step increment is purely vertical
(`ΔEasting = ΔNorthing = 0`, `ΔTVD = delta_MD`); in particular the survey
`[(0, 0, 0), (1000, 0, 0)]` with seed `(0, 0, 0)` yields easting `[0, 0]`,
northing `[0, 0]` and TVD `[0, 1000]`. -/
theorem mcm_vertical :
    (∀ MD1 A1 MD2 A2 : ℝ, mcmStep MD1 0 A1 MD2 0 A2 = (0, 0, MD2 - MD1)) ∧
    minimum_curvature_method [((0 : ℝ), (0 : ℝ), (0 : ℝ)), (1000, 0, 0)] 0 0 0
      = ([0, 0], [0, 0], [0, 1000]) := by
  have hstep : ∀ MD1 A1 MD2 A2 : ℝ,
      mcmStep MD1 0 A1 MD2 0 A2 = (0, 0, MD2 - MD1) := by
    intro MD1 A1 MD2 A2
    have hc : cos_DLS 0 0 (A2 - A1) = 1 := by simp [cos_DLS]
    have hrf : RF (MD2 - MD1) 0 0 (A2 - A1) = 1 :=
      RF_of_DLS_zero (DLS_of_cos_DLS_one hc)
    simp only [mcmStep]
    rw [hrf]
    simp only [Real.sin_zero, Real.cos_zero, Prod.mk.injEq]
    refine ⟨by ring, by ring, by ring⟩
  refine ⟨hstep, ?_⟩
  have h := hstep 0 0 1000 0
  simp only [minimum_curvature_method, mcmFrom, h]
  norm_num

/-- C5: when two consecutive stations share the same measured depth the
guard defines `DLS = 0`, the ratio factor falls back to `1`, and the step
increment is zero in all three coordinates. -/
theorem mcm_zero_delta_md (MD I1 A1 I2 A2 : ℝ) :
    DLS (MD - MD) I1 I2 (A2 - A1) = 0 ∧ RF (MD - MD) I1 I2 (A2 - A1) = 1 ∧
    mcmStep MD I1 A1 MD I2 A2 = (0, 0, 0) := by
  have hd : DLS (MD - MD) I1 I2 (A2 - A1) = 0 := by simp [DLS]
  have hrf := RF_of_DLS_zero hd
  refine ⟨hd, hrf, ?_⟩
  simp only [mcmStep]
  rw [hrf]
  simp only [Prod.mk.injEq]
  refine ⟨by ring, by ring, by ring⟩

/-- C7: the argument passed to arccos in the dogleg computation always lies
in `[-1, 1]`, for arbitrary real inclinations and azimuth difference, so the
arccos call has no reachable domain error. -/
theorem mcm_arccos_arg_bounded (I1 I2 delta_A : ℝ) :
    -1 ≤ cos_DLS I1 I2 delta_A ∧ cos_DLS I1 I2 delta_A ≤ 1 := by
  have h1 := Real.sin_sq_add_cos_sq I1
  have h2 := Real.sin_sq_add_cos_sq I2
  have he := Real.cos_sq_le_one delta_A
  have hd := sq_nonneg (Real.sin I2)
  simp only [cos_DLS]
  constructor
  · nlinarith [sq_nonneg (Real.cos I1 + Real.cos I2),
      sq_nonneg (Real.sin I1 + Real.sin I2 * Real.cos delta_A)]
  · nlinarith [sq_nonneg (Real.cos I1 - Real.cos I2),
      sq_nonneg (Real.sin I1 - Real.sin I2 * Real.cos delta_A)]

/-- Counterexample to C6: for the station pair `(1, 0, 0)`, `(0, pi/2, 0)`
the measured-depth delta is `-1 ≤ 0`, yet no fallback is substituted: the
dogleg severity is computed by the division and is non-zero, and the ratio
factor differs from `1`. -/
theorem mcm_negative_delta_cex :
    ((-1 : ℝ) ≤ 0) ∧ DLS (-1) 0 (Real.pi / 2) 0 ≠ 0 ∧
      RF (-1) 0 (Real.pi / 2) 0 ≠ 1 := by
  have hpi := Real.pi_pos
  have hc : cos_DLS 0 (Real.pi / 2) 0 = 0 := by simp [cos_DLS]
  have hd : DLS (-1) 0 (Real.pi / 2) 0 = -(Real.pi / 2) := by
    rw [DLS, if_pos (by norm_num : (-1 : ℝ) ≠ 0), hc, Real.arccos_zero]
    ring
  have hdne : DLS (-1) 0 (Real.pi / 2) 0 ≠ 0 := by
    rw [hd]
    intro h
    have : Real.pi / 2 = 0 := by linarith [neg_eq_zero.mp h]
    linarith
  have hrf : RF (-1) 0 (Real.pi / 2) 0 = 4 / Real.pi := by
    rw [RF, if_pos hdne, hd]
    have harg : -(Real.pi / 2) / 2 = -(Real.pi / 4) := by ring
    rw [harg, Real.tan_neg, Real.tan_pi_div_four]
    field_simp
    ring
  refine ⟨by norm_num, hdne, ?_⟩
  rw [hrf]
  intro h
  rw [div_eq_one_iff_eq (ne_of_gt hpi)] at h
  have := Real.pi_lt_d2
  linarith

/-- C6 amended: the fallback `DLS = 0` (hence `RF = 1`) is substituted only
when the measured-depth delta is exactly zero; for strictly negative
measured-depth delta the quotient `arccos(cos_DLS) / delta_MD` is computed
by ordinary (non-failing) division. -/
theorem mcm_nonpositive_delta_amended (delta_MD I1 I2 delta_A : ℝ)
    (h : delta_MD < 0) :
    DLS delta_MD I1 I2 delta_A
      = Real.arccos (cos_DLS I1 I2 delta_A) / delta_MD ∧
    DLS 0 I1 I2 delta_A = 0 ∧ RF 0 I1 I2 delta_A = 1 := by
  refine ⟨?_, by simp [DLS], RF_of_DLS_zero (by simp [DLS])⟩
  rw [DLS, if_pos (ne_of_lt h)]

/-- Witness for the amended C6 at `delta_MD = -1` and all angles zero. -/
theorem mcm_nonpositive_delta_amended_witness :
    ((-1 : ℝ) < 0) ∧
    (DLS (-1) 0 0 0 = Real.arccos (cos_DLS 0 0 0) / (-1) ∧
     DLS 0 0 0 0 = 0 ∧ RF 0 0 0 0 = 1) :=
  ⟨by norm_num, mcm_nonpositive_delta_amended (-1) 0 0 0 (by norm_num)⟩

/-- For small positive angles the tangent is below twice the angle; used to
bound the ratio factor of the build-and-turn scenario. -/
lemma tan_lt_two_mul_of_small {x : ℝ} (h0 : 0 < x) (h1 : x < Real.pi / 3) :
    Real.tan x < 2 * x := by
  have hpi := Real.pi_pos
  have hcos : 1 / 2 < Real.cos x := by
    have h := Real.cos_lt_cos_of_nonneg_of_le_pi (le_of_lt h0)
      (by linarith) h1
    rw [Real.cos_pi_div_three] at h
    exact h
  have hcos0 : 0 < Real.cos x := by linarith
  have hsin : Real.sin x < x := Real.sin_lt h0
  rw [Real.tan_eq_sin_div_cos, div_lt_iff₀ hcos0]
  nlinarith [hsin, hcos, h0]

/-- C4: on the survey `[(0, 0, 0), (1000, pi/2, 0)]` with seed `(0, 0, 0)`
(build from vertical to horizontal heading north), the easting stays exactly
`0`, the final northing is strictly positive, and the final TVD is strictly
below `1000`. -/
theorem mcm_build_turn :
    ∃ n1 t1 : ℝ,
      minimum_curvature_method
          [((0 : ℝ), (0 : ℝ), (0 : ℝ)), (1000, Real.pi / 2, 0)] 0 0 0
        = ([0, 0], [0, n1], [0, t1]) ∧ 0 < n1 ∧ t1 < 1000 := by
  have hpi := Real.pi_pos
  set x : ℝ := Real.pi / 4000 with hx
  have hx0 : 0 < x := by rw [hx]; positivity
  have hx3 : x < Real.pi / 3 := by rw [hx]; linarith
  have htan := tan_lt_two_mul_of_small hx0 hx3
  have htanpos : 0 < Real.tan x :=
    Real.tan_pos_of_pos_of_lt_pi_div_two hx0 (by rw [hx]; linarith)
  have hc : cos_DLS 0 (Real.pi / 2) 0 = 0 := by simp [cos_DLS]
  have hdls : DLS 1000 0 (Real.pi / 2) 0 = 2 * x := by
    rw [DLS, if_pos (by norm_num : (1000 : ℝ) ≠ 0), hc, Real.arccos_zero, hx]
    ring
  have hdne : DLS 1000 0 (Real.pi / 2) 0 ≠ 0 := by
    rw [hdls]
    exact ne_of_gt (by linarith)
  have hrfv : RF 1000 0 (Real.pi / 2) 0 = Real.tan x / x := by
    rw [RF, if_pos hdne, hdls]
    have harg : 2 * x / 2 = x := by ring
    rw [harg]
    field_simp
    ring
  have hrf0 : 0 < RF 1000 0 (Real.pi / 2) 0 := by
    rw [hrfv]
    exact div_pos htanpos hx0
  have hrf2 : RF 1000 0 (Real.pi / 2) 0 < 2 := by
    rw [hrfv, div_lt_iff₀ hx0]
    linarith
  refine ⟨500 * RF 1000 0 (Real.pi / 2) 0, 500 * RF 1000 0 (Real.pi / 2) 0,
    ?_, by linarith, by linarith⟩
  simp only [minimum_curvature_method, mcmFrom, mcmStep]
  norm_num [Real.sin_pi_div_two, Real.cos_pi_div_two]
  ring_nf
  exact ⟨trivial, trivial⟩

/-! ### Helper lemmas for the IPR models -/

/-- The Vogel polynomial is strictly positive whenever the flowing pressure
is non-negative and strictly below the reservoir pressure. -/
lemma vpoly_pos {p_wf p_r : ℝ} (h0 : 0 ≤ p_wf) (h1 : p_wf < p_r) :
    0 < vogel.vpoly p_wf p_r := by
  have hr : 0 < p_r := lt_of_le_of_lt h0 h1
  have hr0 : 0 ≤ p_wf / p_r := div_nonneg h0 (le_of_lt hr)
  have hr1 : p_wf / p_r < 1 := (div_lt_one hr).mpr h1
  rw [vogel.vpoly]
  nlinarith [hr0, hr1]

/-- On validated inputs the Vogel polynomial vanishes exactly at
`p_wf = p_r`. -/
lemma vpoly_eq_zero_iff {p_wf p_r : ℝ} (h0 : 0 ≤ p_wf) (hr : 0 < p_r)
    (hle : p_wf ≤ p_r) : vogel.vpoly p_wf p_r = 0 ↔ p_wf = p_r := by
  constructor
  · intro h
    by_contra hne
    have := vpoly_pos h0 (lt_of_le_of_ne hle hne)
    linarith
  · intro h
    subst h
    rw [vogel.vpoly, div_self (ne_of_gt hr)]
    norm_num

/-- Error characterization of `pi.q`: `ValueError` exactly on the invalid
pressure conditions, the PI flow-rate value otherwise. -/
lemma piq_error_iff (p_wf p_r PI : ℝ) :
    (pi.q p_wf p_r PI = Except.error PyErr.valueError ↔ errCond p_wf p_r) ∧
    (pi.q p_wf p_r PI = Except.ok (PI * (p_r - p_wf)) ↔
      ¬ errCond p_wf p_r) := by
  rw [pi.q, errCond]
  split_ifs with h1 h2
  · have hor : p_wf < 0 ∨ p_r ≤ 0 ∨ p_wf > p_r :=
      h1.elim Or.inl (fun h => Or.inr (Or.inl h))
    exact ⟨⟨fun _ => hor, fun _ => rfl⟩,
      ⟨fun h => absurd h (by simp), fun hn => absurd hor hn⟩⟩
  · have hor : p_wf < 0 ∨ p_r ≤ 0 ∨ p_wf > p_r := Or.inr (Or.inr h2)
    exact ⟨⟨fun _ => hor, fun _ => rfl⟩,
      ⟨fun h => absurd h (by simp), fun hn => absurd hor hn⟩⟩
  · have hno : ¬(p_wf < 0 ∨ p_r ≤ 0 ∨ p_wf > p_r) := by
      rintro (h | h | h)
      · exact h1 (Or.inl h)
      · exact h1 (Or.inr h)
      · exact h2 h
    exact ⟨⟨fun h => absurd h (by simp), fun hc => absurd hc hno⟩,
      ⟨fun _ => hno, fun _ => rfl⟩⟩

/-- Error characterization of `vogel.q`: `ValueError` exactly on the invalid
pressure conditions, the Vogel flow-rate value otherwise. -/
lemma vogelq_error_iff (p_wf p_r q_max : ℝ) :
    (vogel.q p_wf p_r q_max = Except.error PyErr.valueError ↔
      errCond p_wf p_r) ∧
    (vogel.q p_wf p_r q_max = Except.ok (q_max * vogel.vpoly p_wf p_r) ↔
      ¬ errCond p_wf p_r) := by
  rw [vogel.q, errCond]
  split_ifs with h1 h2
  · have hor : p_wf < 0 ∨ p_r ≤ 0 ∨ p_wf > p_r :=
      h1.elim Or.inl (fun h => Or.inr (Or.inl h))
    exact ⟨⟨fun _ => hor, fun _ => rfl⟩,
      ⟨fun h => absurd h (by simp), fun hn => absurd hor hn⟩⟩
  · have hor : p_wf < 0 ∨ p_r ≤ 0 ∨ p_wf > p_r := Or.inr (Or.inr h2)
    exact ⟨⟨fun _ => hor, fun _ => rfl⟩,
      ⟨fun h => absurd h (by simp), fun hn => absurd hor hn⟩⟩
  · have hno : ¬(p_wf < 0 ∨ p_r ≤ 0 ∨ p_wf > p_r) := by
      rintro (h | h | h)
      · exact h1 (Or.inl h)
      · exact h1 (Or.inr h)
      · exact h2 h
    exact ⟨⟨fun h => absurd h (by simp), fun hc => absurd hc hno⟩,
      ⟨fun _ => hno, fun _ => rfl⟩⟩

/-- Error characterization of `pi.calculate_PI`: it raises `ValueError` also
at `p_wf1 = p_r`, beyond the three invalid pressure conditions. -/
lemma calculate_PI_error_iff (q1 p_r p_wf1 : ℝ) :
    pi.calculate_PI q1 p_r p_wf1 = Except.error PyErr.valueError ↔
      (errCond p_wf1 p_r ∨ p_wf1 = p_r) := by
  rw [pi.calculate_PI, errCond]
  split_ifs with h1 h2 h3
  · exact ⟨fun _ => Or.inl (h1.elim Or.inl (fun h => Or.inr (Or.inl h))),
      fun _ => rfl⟩
  · exact ⟨fun _ => Or.inl (Or.inr (Or.inr h2)), fun _ => rfl⟩
  · exact ⟨fun _ => Or.inr (sub_eq_zero.mp h3).symm, fun _ => rfl⟩
  · rw [pydiv, if_neg h3]
    constructor
    · intro h
      exact absurd h (by simp)
    · rintro (hc | he)
      · exact absurd hc (by
          rintro (h | h | h)
          · exact h1 (Or.inl h)
          · exact h1 (Or.inr h)
          · exact h2 h)
      · exact absurd (show p_r - p_wf1 = 0 by rw [he, sub_self]) h3

/-- Error characterization of `vogel.calculate_qmax`: `ValueError` on the
invalid pressure conditions, and a `ZeroDivisionError` exactly when the
validation passes but the flowing pressure equals the reservoir pressure. -/
lemma calculate_qmax_error_iff (q1 p_wf1 p_r : ℝ) :
    (vogel.calculate_qmax q1 p_wf1 p_r = Except.error PyErr.valueError ↔
      errCond p_wf1 p_r) ∧
    (vogel.calculate_qmax q1 p_wf1 p_r
        = Except.error PyErr.zeroDivisionError ↔
      (¬ errCond p_wf1 p_r ∧ p_wf1 = p_r)) := by
  rw [vogel.calculate_qmax, errCond]
  split_ifs with h1 h2
  · have hor : p_wf1 < 0 ∨ p_r ≤ 0 ∨ p_wf1 > p_r :=
      h1.elim Or.inl (fun h => Or.inr (Or.inl h))
    exact ⟨⟨fun _ => hor, fun _ => rfl⟩,
      ⟨fun h => absurd h (by simp), fun hc => absurd hor hc.1⟩⟩
  · have hor : p_wf1 < 0 ∨ p_r ≤ 0 ∨ p_wf1 > p_r := Or.inr (Or.inr h2)
    exact ⟨⟨fun _ => hor, fun _ => rfl⟩,
      ⟨fun h => absurd h (by simp), fun hc => absurd hor hc.1⟩⟩
  · push_neg at h1 h2
    have hno : ¬(p_wf1 < 0 ∨ p_r ≤ 0 ∨ p_wf1 > p_r) := by
      rintro (h | h | h)
      · linarith [h1.1]
      · linarith [h1.2]
      · linarith [h2]
    rw [pydiv]
    split_ifs with h3
    · exact ⟨⟨fun h => absurd h (by simp), fun hc => absurd hc hno⟩,
        ⟨fun _ => ⟨hno, (vpoly_eq_zero_iff h1.1 h1.2 h2).mp h3⟩,
          fun _ => rfl⟩⟩
    · exact ⟨⟨fun h => absurd h (by simp), fun hc => absurd hc hno⟩,
        ⟨fun h => absurd h (by simp),
          fun hc => absurd ((vpoly_eq_zero_iff h1.1 h1.2 h2).mpr hc.2) h3⟩⟩

/-! ### Claims about the IPR models -/

/-- Counterexample to C8: at `q1 = 500`, `p_r = 1`, `p_wf1 = 1` none of the
three claimed error conditions holds, yet `pi.calculate_PI` raises
`ValueError` instead of returning a value. -/
theorem ipr_error_cex :
    pi.calculate_PI 500 1 1 = Except.error PyErr.valueError ∧
    ¬ errCond 1 1 := by
  constructor
  · rw [pi.calculate_PI]
    norm_num [pydiv]
  · rw [errCond]
    push_neg
    norm_num

/-- C8 amended: `pi.q` and `vogel.q` raise `ValueError` exactly on the three
invalid pressure conditions and otherwise return the model value;
`pi.calculate_PI` raises `ValueError` also when the flowing pressure equals
the reservoir pressure; `vogel.calculate_qmax` raises `ValueError` exactly
on the three conditions and a `ZeroDivisionError` (not a `ValueError`)
exactly when validation passes but the flowing pressure equals the reservoir
pressure. -/
theorem ipr_error_conditions :
    (∀ p_wf p_r PI : ℝ,
      (pi.q p_wf p_r PI = Except.error PyErr.valueError ↔
        errCond p_wf p_r) ∧
      (pi.q p_wf p_r PI = Except.ok (PI * (p_r - p_wf)) ↔
        ¬ errCond p_wf p_r)) ∧
    (∀ p_wf p_r q_max : ℝ,
      (vogel.q p_wf p_r q_max = Except.error PyErr.valueError ↔
        errCond p_wf p_r) ∧
      (vogel.q p_wf p_r q_max = Except.ok (q_max * vogel.vpoly p_wf p_r) ↔
        ¬ errCond p_wf p_r)) ∧
    (∀ q1 p_r p_wf1 : ℝ,
      pi.calculate_PI q1 p_r p_wf1 = Except.error PyErr.valueError ↔
        (errCond p_wf1 p_r ∨ p_wf1 = p_r)) ∧
    (∀ q1 p_wf1 p_r : ℝ,
      (vogel.calculate_qmax q1 p_wf1 p_r = Except.error PyErr.valueError ↔
        errCond p_wf1 p_r) ∧
      (vogel.calculate_qmax q1 p_wf1 p_r
          = Except.error PyErr.zeroDivisionError ↔
        (¬ errCond p_wf1 p_r ∧ p_wf1 = p_r))) :=
  ⟨piq_error_iff, vogelq_error_iff, calculate_PI_error_iff,
    calculate_qmax_error_iff⟩

/-- Witness for the amended C8: a `ValueError` of `pi.q` at a negative
flowing pressure, and a `ZeroDivisionError` of `vogel.calculate_qmax` at
equal pressures, both obtained from the characterization. -/
theorem ipr_error_conditions_witness :
    pi.q (-1) 1 0 = Except.error PyErr.valueError ∧
    vogel.calculate_qmax 7 3 3 = Except.error PyErr.zeroDivisionError :=
  ⟨((ipr_error_conditions.1 (-1) 1 0).1).mpr (Or.inl (by norm_num)),
   ((ipr_error_conditions.2.2.2 7 3 3).2).mpr
     ⟨by rw [errCond]; push_neg; norm_num, rfl⟩⟩

/-- C9: for `0 ≤ p_wf1 < p_r`, solving for the model parameter at a test
point and evaluating the model back at that point returns the test flow rate
exactly, for both the PI and the Vogel model. -/
theorem ipr_round_trip (q1 p_wf1 p_r : ℝ) (h0 : 0 ≤ p_wf1)
    (h1 : p_wf1 < p_r) :
    pi.calculate_PI q1 p_r p_wf1 = Except.ok (q1 / (p_r - p_wf1)) ∧
    pi.q p_wf1 p_r (q1 / (p_r - p_wf1)) = Except.ok q1 ∧
    vogel.calculate_qmax q1 p_wf1 p_r
      = Except.ok (q1 / vogel.vpoly p_wf1 p_r) ∧
    vogel.q p_wf1 p_r (q1 / vogel.vpoly p_wf1 p_r) = Except.ok q1 := by
  have hr : 0 < p_r := lt_of_le_of_lt h0 h1
  have hne : p_r - p_wf1 ≠ 0 := ne_of_gt (sub_pos.mpr h1)
  have hvp := vpoly_pos h0 h1
  have hcond1 : ¬(p_wf1 < 0 ∨ p_r ≤ 0) := by push_neg; exact ⟨h0, hr⟩
  have hcond2 : ¬(p_wf1 > p_r) := not_lt.mpr (le_of_lt h1)
  refine ⟨?_, ?_, ?_, ?_⟩
  · rw [pi.calculate_PI, if_neg hcond1, if_neg hcond2, if_neg hne, pydiv,
      if_neg hne]
  · rw [pi.q, if_neg hcond1, if_neg hcond2]
    congr 1
    exact div_mul_cancel₀ q1 hne
  · rw [vogel.calculate_qmax, if_neg hcond1, if_neg hcond2, pydiv,
      if_neg (ne_of_gt hvp)]
  · rw [vogel.q, if_neg hcond1, if_neg hcond2]
    congr 1
    exact div_mul_cancel₀ q1 (ne_of_gt hvp)

/-- Witness for C9 at the example data of `pi.py`:
`q1 = 500`, `p_wf1 = 1500`, `p_r = 2500`. -/
theorem ipr_round_trip_witness :
    ((0 : ℝ) ≤ 1500 ∧ (1500 : ℝ) < 2500) ∧
    (pi.calculate_PI 500 2500 1500 = Except.ok (500 / (2500 - 1500)) ∧
     pi.q 1500 2500 (500 / (2500 - 1500)) = Except.ok 500 ∧
     vogel.calculate_qmax 500 1500 2500
       = Except.ok (500 / vogel.vpoly 1500 2500) ∧
     vogel.q 1500 2500 (500 / vogel.vpoly 1500 2500) = Except.ok 500) :=
  ⟨⟨by norm_num, by norm_num⟩,
    ipr_round_trip 500 1500 2500 (by norm_num) (by norm_num)⟩

/-- C10: on inputs with `0 ≤ p_wf1 < p_r` the Vogel denominator is strictly
positive, so the division in `calculate_qmax` cannot fail; but at
`p_wf1 = p_r > 0`, which passes the validation checks, the denominator is
zero and the function raises a `ZeroDivisionError` instead of the
`ValueError` used for invalid input. -/
theorem vogel_denominator :
    (∀ p_wf1 p_r : ℝ, 0 ≤ p_wf1 → p_wf1 < p_r →
      0 < vogel.vpoly p_wf1 p_r) ∧
    (∀ q1 p_r : ℝ, 0 < p_r → vogel.vpoly p_r p_r = 0 ∧
      vogel.calculate_qmax q1 p_r p_r
        = Except.error PyErr.zeroDivisionError) := by
  refine ⟨fun p_wf1 p_r h0 h1 => vpoly_pos h0 h1, ?_⟩
  intro q1 p_r hr
  have hz : vogel.vpoly p_r p_r = 0 := by
    rw [vogel.vpoly, div_self (ne_of_gt hr)]
    norm_num
  have hc1 : ¬(p_r < 0 ∨ p_r ≤ 0) := by push_neg; exact ⟨le_of_lt hr, hr⟩
  have hc2 : ¬(p_r > p_r) := lt_irrefl p_r
  exact ⟨hz, by rw [vogel.calculate_qmax, if_neg hc1, if_neg hc2, pydiv,
    if_pos hz]⟩

/-- Witness for C10 at `p_wf1 = 1 < p_r = 2` (positive denominator) and at
`q1 = 5`, `p_wf1 = p_r = 2` (zero denominator and `ZeroDivisionError`). -/
theorem vogel_denominator_witness :
    (((0 : ℝ) ≤ 1 ∧ (1 : ℝ) < 2) ∧ 0 < vogel.vpoly 1 2) ∧
    ((0 : ℝ) < 2 ∧ vogel.vpoly 2 2 = 0 ∧
      vogel.calculate_qmax 5 2 2 = Except.error PyErr.zeroDivisionError) :=
  ⟨⟨⟨by norm_num, by norm_num⟩,
      vogel_denominator.1 1 2 (by norm_num) (by norm_num)⟩,
   ⟨by norm_num, (vogel_denominator.2 5 2 (by norm_num)).1,
      (vogel_denominator.2 5 2 (by norm_num)).2⟩⟩
